import Mathlib

/-!
Verification development for `plugin-vite-electron-renderer`.

The definitions below are a shallow embedding of the plugin's source
(`src/index.ts`, `src/constants.ts`, and the parts of `src/snippets.ts`
that are reconstructed from the specification where the source file is
not available).  File-system state and the in-memory module cache are
threaded explicitly; JavaScript strings become Lean `String`s and the
`Map` / object lookups become association lists.
-/

namespace PluginVER

/-- Association-list lookup, modelling `Map.get` / JS object member access.
A later `set` is modelled by consing, so lookup takes the first hit. -/
def alookup {α : Type} : List (String × α) → String → Option α
  | [], _ => none
  | (k, v) :: rest, key => if k = key then some v else alookup rest key

/-- Model of `path.posix.join` for the two-argument calls made by the plugin.
The plugin only joins already-normalized directory names without trailing
slashes, so slash collapsing and `..` processing never trigger; they are not
modelled. -/
def posixJoin (a b : String) : String :=
  if a = "" then b else a ++ "/" ++ b

/-- Cache directory name (`CACHE_DIR` in `src/index.ts`). -/
def CACHE_DIR : String := ".vite-electron-renderer"

/-- Electron process environments (`src/types.ts`, used by `ElectronApiInfo`). -/
inductive ProcEnv
  | Main
  | Renderer
  | Utility
deriving DecidableEq, Repr

/-- One entry of the Electron API catalog (`ElectronApiInfo` in `src/types.ts`);
`deprecated` is optional in the source and defaults to absent/false. -/
structure ElectronApiInfo where
  name : String
  environments : List ProcEnv
  deprecated : Bool := false
deriving DecidableEq, Repr

/-- The API catalog `ELECTRON_MAIN_APIS` from `src/constants.ts`,
transcribed entry by entry in source order. -/
def ELECTRON_MAIN_APIS : List ElectronApiInfo := [
  { name := "app", environments := [ProcEnv.Main] },
  { name := "autoUpdater", environments := [ProcEnv.Main] },
  { name := "BaseWindow", environments := [ProcEnv.Main] },
  { name := "BrowserView", environments := [ProcEnv.Main], deprecated := true },
  { name := "BrowserWindow", environments := [ProcEnv.Main] },
  { name := "View", environments := [ProcEnv.Main] },
  { name := "WebContentsView", environments := [ProcEnv.Main] },
  { name := "clipboard", environments := [ProcEnv.Main, ProcEnv.Renderer] },
  { name := "contentTracing", environments := [ProcEnv.Main] },
  { name := "crashReporter", environments := [ProcEnv.Main, ProcEnv.Renderer] },
  { name := "desktopCapturer", environments := [ProcEnv.Main] },
  { name := "dialog", environments := [ProcEnv.Main] },
  { name := "globalShortcut", environments := [ProcEnv.Main] },
  { name := "inAppPurchase", environments := [ProcEnv.Main] },
  { name := "ipcMain", environments := [ProcEnv.Main] },
  { name := "MessageChannelMain", environments := [ProcEnv.Main] },
  { name := "MessagePortMain", environments := [ProcEnv.Main] },
  { name := "Menu", environments := [ProcEnv.Main] },
  { name := "nativeImage", environments := [ProcEnv.Main, ProcEnv.Renderer] },
  { name := "nativeTheme", environments := [ProcEnv.Main] },
  { name := "Notification", environments := [ProcEnv.Main] },
  { name := "ShareMenu", environments := [ProcEnv.Main] },
  { name := "TouchBar", environments := [ProcEnv.Main] },
  { name := "Tray", environments := [ProcEnv.Main] },
  { name := "net", environments := [ProcEnv.Main, ProcEnv.Utility] },
  { name := "netLog", environments := [ProcEnv.Main] },
  { name := "powerMonitor", environments := [ProcEnv.Main] },
  { name := "powerSaveBlocker", environments := [ProcEnv.Main] },
  { name := "process", environments := [ProcEnv.Main, ProcEnv.Renderer] },
  { name := "screen", environments := [ProcEnv.Main] },
  { name := "systemPreferences", environments := [ProcEnv.Main, ProcEnv.Utility] },
  { name := "protocol", environments := [ProcEnv.Main] },
  { name := "pushNotifications", environments := [ProcEnv.Main] },
  { name := "safeStorage", environments := [ProcEnv.Main] },
  { name := "session", environments := [ProcEnv.Main] },
  { name := "ServiceWorkerMain", environments := [ProcEnv.Main] },
  { name := "shell", environments := [ProcEnv.Main, ProcEnv.Renderer] },
  { name := "webContents", environments := [ProcEnv.Main] },
  { name := "webFrameMain", environments := [ProcEnv.Main] },
  { name := "parentPort", environments := [ProcEnv.Utility] },
  { name := "utilityProcess", environments := [ProcEnv.Main] }
]

/-- `getMainOnlyApis` from `src/constants.ts`: filter the catalog for
`environments.length === 1 && environments[0] === "Main"`, then map to names. -/
def getMainOnlyApis : List String :=
  (ELECTRON_MAIN_APIS.filter
    (fun d => d.environments.length == 1 && d.environments.head? == some ProcEnv.Main)).map
    (fun d => d.name)

/-- Modelled from the spec: `generateModuleSnippet` lives in `src/snippets.ts`,
which is not included in the source tree (only its callers and tests are).
Per spec section 4.2 the generated text binds the load primitive to an
intermediate variable, performs the synchronous load of the identifier, and
emits a default export.  The named exports of a builtin depend on runtime
member enumeration of the loaded module, which a pure model cannot observe;
no claim depends on them. -/
def generateModuleSnippet (id : String) : String :=
  "const avoid_parse_require = require;\x0a" ++
  "const _M_ = avoid_parse_require(\"" ++ id ++ "\");\x0a" ++
  "export default _M_.default || _M_;\x0a"

/-- Modelled from the spec: `generateElectronSnippet` lives in `src/snippets.ts`,
which is not included in the source tree.  Per spec section 4.2 it loads the
platform module through the load-binding indirection, re-exports the
renderer-available APIs, exports main-process-only API names bound to
`undefined`, and emits a default export.  The worker-thread proxy guard is a
runtime construct represented here only as text. -/
def generateElectronSnippet : String :=
  "const avoid_parse_require = require;\x0a" ++
  "const _E_ = avoid_parse_require(\"electron\");\x0a" ++
  String.join (getMainOnlyApis.map
    (fun n => "export const " ++ n ++ " = undefined;\x0a")) ++
  "export default _E_.default || _E_;\x0a"

/-- Sanitized on-disk filename stem: `source.replace(/[/@]/g, "_")`. -/
def sanitizeId (source : String) : String :=
  String.mk (source.data.map (fun c => if c = '/' ∨ c = '@' then '_' else c))

/-- Cache file path used by the builtin resolver:
`path.posix.join(cacheDir, source) + ".mjs"`. -/
def wrapperPath (cacheDir source : String) : String :=
  posixJoin cacheDir source ++ ".mjs"

/-- Cache file path used by the declared-module resolver:
`path.posix.join(cacheDir, source.replace(/[/@]/g, "_")) + ".mjs"`. -/
def declaredWrapperPath (cacheDir source : String) : String :=
  posixJoin cacheDir (sanitizeId source) ++ ".mjs"

/-- State shared by both custom resolvers: the in-memory `moduleCache`
map and the on-disk cache files (path ↦ file content). -/
structure ResolverState where
  moduleCache : List (String × String)
  fsys : List (String × String)
deriving DecidableEq, Repr

/-- Existence check on the modelled file system (`fs.existsSync`). -/
def fsysExists (fsys : List (String × String)) (p : String) : Bool :=
  (alookup fsys p).isSome

/-- Builtin-alias `customResolver` (src/index.ts lines 282-302).  Returns the
updated state, the resolved id, and the number of wrapper-file writes the call
performed (0 or 1).  `ensureDir` has no observable effect in this model. -/
def builtinResolve (cacheDir : String) (s : ResolverState) (source : String) :
    ResolverState × String × Nat :=
  match alookup s.moduleCache source with
  | some id => (s, id, 0)
  | none =>
    let id := wrapperPath cacheDir source
    if fsysExists s.fsys id then
      ({ s with moduleCache := (source, id) :: s.moduleCache }, id, 0)
    else
      let content := if source = "electron"
        then generateElectronSnippet
        else generateModuleSnippet source
      ({ moduleCache := (source, id) :: s.moduleCache,
         fsys := (id, content) :: s.fsys }, id, 1)

-- a tiny smoke test while developing
example : (builtinResolve "/c" ⟨[], []⟩ "fs").2.1 = "/c/fs.mjs" := by decide

/-- `ModuleType` from `src/types.ts`: `"cjs" | "esm"`. -/
inductive ModuleType
  | cjs
  | esm
deriving DecidableEq, Repr

/-- `ModuleResolveConfig` from `src/types.ts`.  The optional `build` member is
an opaque user callback returning adapter text; a pure model represents it by
the text it produces (the resolver only awaits its string result). -/
structure ModuleResolveConfig where
  type : ModuleType
  build : Option String := none
deriving DecidableEq, Repr

/-- Modelled from the spec: the text `prebundleModule` returns for an
ESM-declared module.  The real function runs esbuild (spec section 4.3, an
external bundling service) and wraps the produced `.cjs` file via
`generatePreBundledSnippet` from the missing `src/snippets.ts`; the model
keeps it as a deterministic function of the identifier. -/
def prebundledSnippet (source : String) : String :=
  "const avoid_parse_require = require;\x0a" ++
  "const _M_ = avoid_parse_require(\"./" ++ sanitizeId source ++ ".cjs\");\x0a" ++
  "export default _M_.default || _M_;\x0a"

/-- On-disk path of the esbuild output for an ESM-declared module:
`path.posix.join(outdir, module.replace(/[/@]/g, "_")) + ".cjs"`. -/
def prebundleOutfile (cacheDir source : String) : String :=
  posixJoin cacheDir (sanitizeId source) ++ ".cjs"

/-- Result object returned to Vite by a custom resolver (`{ id }`). -/
structure ResolvedId where
  id : String
deriving DecidableEq, Repr

/-- Wrapper-file text chosen for a declared module with configuration `cfg`
(the `build` / `type === "cjs"` / `type === "esm"` cascade,
src/index.ts lines 339-363). -/
def declaredSnippet (source : String) (cfg : ModuleResolveConfig) : String :=
  match cfg.build with
  | some text => text
  | none =>
    match cfg.type with
    | ModuleType.cjs => generateModuleSnippet source
    | ModuleType.esm => prebundledSnippet source

/-- File-system writes performed while generating the wrapper for a declared
module: the wrapper `.mjs` itself, plus the esbuild `.cjs` output when the
module is ESM-declared without a custom builder. -/
def declaredWrites (cacheDir source : String) (cfg : ModuleResolveConfig) :
    List (String × String) :=
  match cfg.build with
  | some text => [(declaredWrapperPath cacheDir source, text)]
  | none =>
    match cfg.type with
    | ModuleType.cjs =>
      [(declaredWrapperPath cacheDir source, generateModuleSnippet source)]
    | ModuleType.esm =>
      [(declaredWrapperPath cacheDir source, prebundledSnippet source),
       (prebundleOutfile cacheDir source, "/* esbuild bundle */")]

/-- Cache lookup / generation part of the declared-module `customResolver`
(src/index.ts lines 326-383): in-memory cache, then on-disk existence, then
configuration-driven generation, else fall-through (`id = source`).  Returns
the updated state, the computed `id`, and the number of wrapper-file (`.mjs`)
writes. -/
def declaredStep (cacheDir : String) (opts : List (String × ModuleResolveConfig))
    (s : ResolverState) (source : String) : ResolverState × String × Nat :=
  match alookup s.moduleCache source with
  | some id => (s, id, 0)
  | none =>
    let filename := declaredWrapperPath cacheDir source
    if fsysExists s.fsys filename then
      ({ s with moduleCache := (source, filename) :: s.moduleCache }, filename, 0)
    else
      match alookup opts source with
      | some cfg =>
        ({ moduleCache := (source, filename) :: s.moduleCache,
           fsys := declaredWrites cacheDir source cfg ++ s.fsys }, filename, 1)
      | none =>
        ({ s with moduleCache := (source, source) :: s.moduleCache }, source, 0)

/-- Final return expression of the declared-module `customResolver`:
`id === source ? this.resolve(...).then(r => r || { id: source }) : { id }`,
with Vite's own resolver abstracted as `host`. -/
def declaredResult (host : String → Option ResolvedId) (source id : String) :
    Option ResolvedId :=
  if id = source then
    match host source with
    | some r => some r
    | none => some { id := source }
  else some { id := id }

/-- Declared-module `customResolver` (src/index.ts lines 325-395).  `host` is
Vite's own resolver (`this.resolve(...)`, a `null` result modelled as `none`);
the final `return id === source ? this.resolve(...).then(r => r || { id:
source }) : { id }` is reproduced by `declaredResult`. -/
def declaredResolve (cacheDir : String) (opts : List (String × ModuleResolveConfig))
    (host : String → Option ResolvedId) (s : ResolverState) (source : String) :
    ResolverState × Option ResolvedId × Nat :=
  let step := declaredStep cacheDir opts s source
  (step.1, declaredResult host source step.2.1, step.2.2)

example :
    (declaredResolve "/c" [] (fun _ => none) ⟨[], []⟩ "foo").2.1 =
      some { id := "foo" } := by decide

example :
    (declaredResolve "/c" [("a/b", { type := ModuleType.cjs })]
      (fun _ => none) ⟨[], []⟩ "a/b").2.1 = some { id := "/c/a_b.mjs" } := by
  decide

/-- Strip a leading literal `node:` from a character list, as the optional
`(?:node:)?` group of the builtin alias regex would consume it. -/
def stripNode : List Char → Option (List Char)
  | 'n' :: 'o' :: 'd' :: 'e' :: ':' :: rest => some rest
  | _ => none

/-- Capture group produced by matching the builtin alias pattern
`^(?:node:)?(electron|<builtins joined by |>)$` (src/index.ts lines 269-271)
against a specifier.  JS regex semantics: the optional prefix is greedy, so a
`node:`-prefixed specifier first tries to match the remainder against the
alternation; on failure it backtracks and tries the whole specifier.  The
alternation of literal names matches a string exactly when the string is one
of the names.  `names` is `["electron", ...builtins]`. -/
def builtinAliasCapture (names : List String) (spec : String) : Option String :=
  match stripNode spec.data with
  | some rest =>
    if names.contains (String.mk rest) then some (String.mk rest)
    else if names.contains spec then some spec
    else none
  | none => if names.contains spec then some spec else none

example : builtinAliasCapture ["electron", "fs", "path"] "node:fs" = some "fs" := by
  decide

example : builtinAliasCapture ["electron", "fs", "path"] "fs" = some "fs" := by
  decide

example : builtinAliasCapture ["electron", "fs", "path"] "zlib" = none := by
  decide

/-- Regex metacharacter class of `escapeRegex` (src/index.ts line 582):
`[.*+?^${}()|[\]\\]`. -/
def isRegexMeta (c : Char) : Bool :=
  c == '.' || c == '*' || c == '+' || c == '?' || c == '^' || c == '$' ||
  c == '\x7b' || c == '\x7d' || c == '(' || c == ')' || c == '|' ||
  c == '[' || c == ']' || c == '\\'

/-- Character-level body of `escapeRegex`: each metacharacter is preceded by a
backslash (`"\\$&"` replacement). -/
def escapeChars : List Char → List Char
  | [] => []
  | c :: rest =>
    if isRegexMeta c then '\\' :: c :: escapeChars rest
    else c :: escapeChars rest

/-- `escapeRegex` from src/index.ts lines 581-583. -/
def escapeRegex (s : String) : String :=
  String.mk (escapeChars s.data)

example : escapeRegex "@scope/pkg" = "@scope/pkg" := by decide

example : escapeRegex "file.js" = "file\\.js" := by decide

/-- Prepend a character to the first alternative of an alternative list. -/
def consHead (c : Char) : List (List Char) → List (List Char)
  | [] => [[c]]
  | a :: as => (c :: a) :: as

/-- Split a regex pattern body into its top-level `|` alternatives, treating a
backslash as an escape that protects the following character.  This is how a
regex engine delimits the alternation in the declared-module pattern
`^(k1|k2|...)$`. -/
def scanAlts : List Char → List (List Char)
  | [] => [[]]
  | c :: rest =>
    if c = '|' then [] :: scanAlts rest
    else if c = '\\' then
      match rest with
      | [] => [['\\']]
      | c2 :: rest2 => consHead '\\' (consHead c2 (scanAlts rest2))
    else consHead c (scanAlts rest)

/-- Interpret a single alternative consisting of literal characters and
escaped metacharacters: `\m` matches the literal `m`, a plain non-metacharacter
matches itself, and anything else is outside the fragment `escapeRegex` can
produce (`none`).  The result is the exact string the alternative matches. -/
def litOfAlt : List Char → Option (List Char)
  | [] => some []
  | c :: rest =>
    if c = '\\' then
      match rest with
      | [] => none
      | c2 :: rest2 =>
        if isRegexMeta c2 then (litOfAlt rest2).map (fun l => c2 :: l) else none
    else if isRegexMeta c then none
    else (litOfAlt rest).map (fun l => c :: l)

/-- Join pattern pieces with `|`, as `resolveKeys.map(escapeRegex).join("|")`. -/
def joinBar : List (List Char) → List Char
  | [] => []
  | [e] => e
  | e :: e2 :: es => e ++ '|' :: joinBar (e2 :: es)

/-- Body of the declared-module alias pattern
`^(${resolveKeys.map(escapeRegex).join("|")})$` (src/index.ts line 314). -/
def declaredPattern (keys : List String) : List Char :=
  joinBar (keys.map (fun k => escapeChars k.data))

/-- Whether the declared-module alias pattern matches a specifier: the anchored
group matches exactly when one top-level alternative matches the whole
specifier literally. -/
def declaredPatternMatches (keys : List String) (s : String) : Bool :=
  (scanAlts (declaredPattern keys)).any
    (fun alt => decide (litOfAlt alt = some s.data))

example : declaredPatternMatches ["@scope/pkg", "file.js"] "@scope/pkg" = true := by
  decide

example : declaredPatternMatches ["@scope/pkg", "file.js"] "fileXjs" = false := by
  decide

example : declaredPatternMatches ["serialport"] "serialport" = true := by decide

/-- Vite config-hook command (`"build" | "serve"`). -/
inductive ViteCommand
  | build
  | serve
deriving DecidableEq, Repr

/-- The `resolveKeys` computation of the `config` hook (src/index.ts lines
248-254): every declared key is kept except ESM-declared modules during a
production build. -/
def computeResolveKeys (command : ViteCommand)
    (resolve : List (String × ModuleResolveConfig)) : List String :=
  (resolve.filter
    (fun kv => !(command == ViteCommand.build && kv.2.type == ModuleType.esm))).map
    (fun kv => kv.1)

example :
    computeResolveKeys ViteCommand.build
      [("serialport", { type := ModuleType.cjs }),
       ("node-fetch", { type := ModuleType.esm })] = ["serialport"] := by decide

example :
    computeResolveKeys ViteCommand.serve
      [("serialport", { type := ModuleType.cjs }),
       ("node-fetch", { type := ModuleType.esm })] =
      ["serialport", "node-fetch"] := by decide

/-- Rollup output options, restricted to the member the plugin touches
(`freeze`) plus one untouched member (`dir`) to record that the adapter
preserves the rest of the object.  `none` models an absent member. -/
structure OutputOpts where
  freeze : Option Bool := none
  dir : Option String := none
deriving DecidableEq, Repr

/-- The slice of Vite's `UserConfig` the plugin mutates.  Absent intermediate
objects (`config.build`, `config.build.rollupOptions`, ...) are modelled by
absent leaves, since the `??= {}` chains only materialize empty objects.
`commonjsIgnore` is `build.commonjsOptions.ignore`, which may be a predicate,
an array, or absent. -/
structure UserConfig where
  base : Option String := none
  output : Option (Sum OutputOpts (List OutputOpts)) := none
  commonjsIgnore : Option (Sum (String → Bool) (List String)) := none
  optimizeDepsExclude : Option (List String) := none

/-- `o.freeze ??= false` on one output object. -/
def disableFreeze (o : OutputOpts) : OutputOpts :=
  { o with freeze := some (o.freeze.getD false) }

/-- Array branch of the `commonjsOptions.ignore` merge:
`existingIgnore.push(...electronBuiltins.filter(b => !existingIgnore.includes(b)))`. -/
def mergedIgnore (arr electronBuiltins : List String) : List String :=
  arr ++ electronBuiltins.filter (fun b => !arr.contains b)

/-- `adaptElectron` (src/index.ts lines 469-518): default the base path,
disable output freezing, and merge the builtin list into
`commonjsOptions.ignore` preserving the caller's shape. -/
def adaptElectron (electronBuiltins : List String) (config : UserConfig) :
    UserConfig :=
  let base := match config.base with
    | some b => some b
    | none => some "./"
  let output : Option (Sum OutputOpts (List OutputOpts)) :=
    match config.output with
    | some (Sum.inl o) => some (Sum.inl (disableFreeze o))
    | some (Sum.inr l) => some (Sum.inr (l.map disableFreeze))
    | none => some (Sum.inl { freeze := some false })
  let ignore : Option (Sum (String → Bool) (List String)) :=
    match config.commonjsIgnore with
    | some (Sum.inl userIgnore) =>
      some (Sum.inl (fun id =>
        if userIgnore id then true else electronBuiltins.contains id))
    | some (Sum.inr arr) =>
      some (Sum.inr (mergedIgnore arr electronBuiltins))
    | none => some (Sum.inr electronBuiltins)
  { config with base := base, output := output, commonjsIgnore := ignore }

/-- The push-if-missing loop of `modifyOptimizeDeps` (src/index.ts 561-565). -/
def pushMissing (cur : List String) (exclude : List String) : List String :=
  exclude.foldl (fun acc s => if acc.contains s then acc else acc ++ [s]) cur

/-- `modifyOptimizeDeps` (src/index.ts lines 556-566). -/
def modifyOptimizeDeps (config : UserConfig) (exclude : List String) :
    UserConfig :=
  { config with
    optimizeDepsExclude :=
      some (pushMissing (config.optimizeDepsExclude.getD []) exclude) }

/-- The output objects present in a configuration. -/
def outputTargets : Option (Sum OutputOpts (List OutputOpts)) → List OutputOpts
  | none => []
  | some (Sum.inl o) => [o]
  | some (Sum.inr l) => l

/-- The output objects the adapter will act on: the existing ones, or the
fresh object it creates when the caller supplied none. -/
def preTargets (c : UserConfig) : List OutputOpts :=
  match c.output with
  | none => [{}]
  | some (Sum.inl o) => [o]
  | some (Sum.inr l) => l

/-- Array form of `commonjsOptions.ignore`, when it is an array. -/
def ignoreList (c : UserConfig) : Option (List String) :=
  match c.commonjsIgnore with
  | some (Sum.inr l) => some l
  | _ => none

/-- Scan of `path.posix.dirname`'s main loop (Node.js implementation): walk
indices `i = length-1, ..., 1` looking for the `/` that ends the directory
part, skipping trailing slashes while `matched` is still true.  Returns the
index `end` at which to cut, or `none` when the loop finds no cut point. -/
def dirScan (p : List Char) : Nat → Bool → Option Nat
  | 0, _ => none
  | Nat.succ i, matched =>
    match p.get? (Nat.succ i) with
    | none => none
    | some c =>
      if c = '/' then
        if matched then dirScan p i true else some (Nat.succ i)
      else dirScan p i false

/-- `path.posix.dirname`, following Node's implementation: empty input gives
`"."`, otherwise scan for the cut point; without one the result is `"/"` for
rooted input and `"."` otherwise, and Node's special `"//"` case is kept. -/
def posixDirname (s : String) : String :=
  let p := s.data
  if p = [] then "."
  else
    let hasRoot := p.head? == some '/'
    match dirScan p (p.length - 1) true with
    | none => if hasRoot then "/" else "."
    | some e =>
      if hasRoot && e == 1 then "//" else String.mk (p.take e)

example : posixDirname "/a/b" = "/a" := by decide
example : posixDirname "/a" = "/" := by decide
example : posixDirname "a" = "." := by decide
example : posixDirname "." = "." := by decide
example : posixDirname "/" = "/" := by decide
example : posixDirname "a/b/" = "a" := by decide

/-- One unrolling budget step of `findNodeModules`'s `while` loop
(src/index.ts lines 101-114).  The loop terminates because `posixDirname`
descends to a fixpoint (`"/"` or `"."`); the fuel passed by `findNodeModules`
exceeds the length of that descent, so the model agrees with the unbounded
loop. -/
def findNodeModulesGo (fsys : String → Bool) : Nat → String → Option String
  | 0, _ => none
  | Nat.succ fuel, current =>
    if current = "" then none
    else
      let nodeModulesPath := posixJoin current "node_modules"
      if fsys nodeModulesPath then some nodeModulesPath
      else
        let parent := posixDirname current
        if parent = current then none
        else findNodeModulesGo fsys fuel parent

/-- `findNodeModules` (src/index.ts lines 101-114), with the file system
abstracted as an existence predicate. -/
def findNodeModules (fsys : String → Bool) (root : String) : Option String :=
  findNodeModulesGo fsys (2 * root.length + 2) root

/-- The chain of directories the `while` loop of `findNodeModules` visits
when no existence check succeeds (the iterated `posixDirname` ancestors,
up to the filesystem root). -/
def dirChain : Nat → String → List String
  | 0, _ => []
  | Nat.succ fuel, current =>
    if current = "" then []
    else
      current ::
        (let parent := posixDirname current
         if parent = current then [] else dirChain fuel parent)

/-- Cache-directory computation of the `config` hook (src/index.ts lines
240-244): `cacheDir = join(findNodeModules(root) ?? join(cwd, "node_modules"),
CACHE_DIR)`. -/
def computeCacheDir (fsys : String → Bool) (cwd root : String) : String :=
  let nodeModulesPath := (findNodeModules fsys root).getD (posixJoin cwd "node_modules")
  posixJoin nodeModulesPath CACHE_DIR

example :
    computeCacheDir (fun _ => false) "/w" "/a/b" =
      "/w/node_modules/.vite-electron-renderer" := by decide

example :
    computeCacheDir (fun p => p == "/a/node_modules") "/w" "/a/b" =
      "/a/node_modules/.vite-electron-renderer" := by decide

/-- Named-export names the CJS wrapper emits: every supplied name except the
literal `"default"` (the "skip literal default" rule of spec section 4.2). -/
def cjsExportNames (names : List String) : List String :=
  names.filter (fun n => n != "default")

/-- One named-export declaration of the generated wrapper text. -/
def exportConstLine (n : String) : String :=
  "export const " ++ n ++ " = _M_." ++ n ++ ";"

/-- Modelled from the spec: `generateCjsWrapperSnippet` lives in
`src/snippets.ts`, which is not included in the source tree (only its test,
`test/snippets.test.ts`, is).  Per spec section 4.2, `generateCjsWrapper(id,
names)` emits the load-binding indirection and default export, plus one named
export per supplied name, skipping a name literally equal to `"default"`. -/
def generateCjsWrapperSnippet (id : String) (names : List String) : String :=
  generateModuleSnippet id ++
  String.intercalate "\x0a" ((cjsExportNames names).map exportConstLine)

example :
    cjsExportNames ["default", "foo", "bar"] = ["foo", "bar"] := by decide

theorem alookup_cons_self {α : Type} (k : String) (v : α)
    (rest : List (String × α)) : alookup ((k, v) :: rest) k = some v := by
  simp [alookup]

theorem builtinResolve_hit (cacheDir : String) (s : ResolverState)
    (source id : String) (h : alookup s.moduleCache source = some id) :
    builtinResolve cacheDir s source = (s, id, 0) := by
  unfold builtinResolve
  rw [h]

theorem builtinResolve_cache (cacheDir : String) (s : ResolverState)
    (source : String) :
    alookup (builtinResolve cacheDir s source).1.moduleCache source =
      some (builtinResolve cacheDir s source).2.1 := by
  unfold builtinResolve
  cases h : alookup s.moduleCache source with
  | some id => simp [h]
  | none =>
    by_cases hf : fsysExists s.fsys (wrapperPath cacheDir source) <;>
      simp [h, hf, alookup]

theorem builtinResolve_writes_le (cacheDir : String) (s : ResolverState)
    (source : String) : (builtinResolve cacheDir s source).2.2 ≤ 1 := by
  unfold builtinResolve
  cases h : alookup s.moduleCache source with
  | some id => simp
  | none =>
    by_cases hf : fsysExists s.fsys (wrapperPath cacheDir source) <;> simp [hf]

theorem declaredStep_hit (cacheDir : String)
    (opts : List (String × ModuleResolveConfig)) (s : ResolverState)
    (source id : String) (h : alookup s.moduleCache source = some id) :
    declaredStep cacheDir opts s source = (s, id, 0) := by
  unfold declaredStep
  rw [h]

theorem declaredStep_cache (cacheDir : String)
    (opts : List (String × ModuleResolveConfig)) (s : ResolverState)
    (source : String) :
    alookup (declaredStep cacheDir opts s source).1.moduleCache source =
      some (declaredStep cacheDir opts s source).2.1 := by
  unfold declaredStep
  cases h : alookup s.moduleCache source with
  | some id => simp [h]
  | none =>
    by_cases hf : fsysExists s.fsys (declaredWrapperPath cacheDir source)
    · simp [h, hf, alookup]
    · cases ho : alookup opts source <;> simp [h, hf, ho, alookup]

theorem declaredStep_writes_le (cacheDir : String)
    (opts : List (String × ModuleResolveConfig)) (s : ResolverState)
    (source : String) : (declaredStep cacheDir opts s source).2.2 ≤ 1 := by
  unfold declaredStep
  cases h : alookup s.moduleCache source with
  | some id => simp
  | none =>
    by_cases hf : fsysExists s.fsys (declaredWrapperPath cacheDir source)
    · simp [hf]
    · cases ho : alookup opts source <;> simp [hf, ho]

theorem builtinResolve_exists_no_write (cacheDir : String) (s : ResolverState)
    (source : String)
    (hf : fsysExists s.fsys (wrapperPath cacheDir source) = true) :
    (builtinResolve cacheDir s source).2.2 = 0 ∧
      (builtinResolve cacheDir s source).1.fsys = s.fsys := by
  unfold builtinResolve
  cases h : alookup s.moduleCache source with
  | some id => simp
  | none => simp [hf]

theorem declaredStep_exists_no_write (cacheDir : String)
    (opts : List (String × ModuleResolveConfig)) (s : ResolverState)
    (source : String)
    (hf : fsysExists s.fsys (declaredWrapperPath cacheDir source) = true) :
    (declaredStep cacheDir opts s source).2.2 = 0 ∧
      (declaredStep cacheDir opts s source).1.fsys = s.fsys := by
  unfold declaredStep
  cases h : alookup s.moduleCache source with
  | some id => simp
  | none => simp [hf]

/-- C1: invoking either cache-backed custom resolver twice with the same
identifier (state threaded, so no external deletion can occur in between)
returns the same resolution both times and writes the wrapper file at most
once in total; and when the wrapper file already exists on disk the first call
performs no write and leaves the file system untouched (the file is accepted
as-is, its content neither regenerated nor validated). -/
theorem cacheResolverIdempotent (cacheDir : String)
    (opts : List (String × ModuleResolveConfig))
    (host : String → Option ResolvedId) (s : ResolverState) (source : String) :
    ((builtinResolve cacheDir s source).2.1 =
        (builtinResolve cacheDir (builtinResolve cacheDir s source).1 source).2.1
      ∧ (builtinResolve cacheDir s source).2.2 +
          (builtinResolve cacheDir (builtinResolve cacheDir s source).1 source).2.2 ≤ 1
      ∧ (fsysExists s.fsys (wrapperPath cacheDir source) = true →
          (builtinResolve cacheDir s source).2.2 = 0 ∧
            (builtinResolve cacheDir s source).1.fsys = s.fsys))
    ∧ ((declaredResolve cacheDir opts host s source).2.1 =
        (declaredResolve cacheDir opts host
          (declaredResolve cacheDir opts host s source).1 source).2.1
      ∧ (declaredResolve cacheDir opts host s source).2.2 +
          (declaredResolve cacheDir opts host
            (declaredResolve cacheDir opts host s source).1 source).2.2 ≤ 1
      ∧ (fsysExists s.fsys (declaredWrapperPath cacheDir source) = true →
          (declaredResolve cacheDir opts host s source).2.2 = 0 ∧
            (declaredResolve cacheDir opts host s source).1.fsys = s.fsys)) := by
  constructor
  · have hc := builtinResolve_cache cacheDir s source
    have h2 := builtinResolve_hit cacheDir (builtinResolve cacheDir s source).1
      source (builtinResolve cacheDir s source).2.1 hc
    refine ⟨by rw [h2], ?_, fun hf => builtinResolve_exists_no_write cacheDir s source hf⟩
    rw [h2]
    simpa using builtinResolve_writes_le cacheDir s source
  · have hc := declaredStep_cache cacheDir opts s source
    have h2 := declaredStep_hit cacheDir opts (declaredStep cacheDir opts s source).1
      source (declaredStep cacheDir opts s source).2.1 hc
    refine ⟨?_, ?_, fun hf => declaredStep_exists_no_write cacheDir opts s source hf⟩
    · show declaredResult host source (declaredStep cacheDir opts s source).2.1 =
        declaredResult host source
          (declaredStep cacheDir opts (declaredStep cacheDir opts s source).1 source).2.1
      rw [h2]
    · show (declaredStep cacheDir opts s source).2.2 +
        (declaredStep cacheDir opts (declaredStep cacheDir opts s source).1 source).2.2 ≤ 1
      rw [h2]
      simpa using declaredStep_writes_le cacheDir opts s source

/-- Witness for C1 at a concrete input: the wrapper file for `fs` already
exists on disk, and the resolver accepts it without writing. -/
theorem cacheResolverIdempotent_witness :
    (builtinResolve "/c" ⟨[], [("/c/fs.mjs", "old content")]⟩ "fs").2.2 = 0 ∧
      (builtinResolve "/c" ⟨[], [("/c/fs.mjs", "old content")]⟩ "fs").1.fsys =
        (⟨[], [("/c/fs.mjs", "old content")]⟩ : ResolverState).fsys :=
  (cacheResolverIdempotent "/c" [] (fun _ => none)
    ⟨[], [("/c/fs.mjs", "old content")]⟩ "fs").1.2.2 (by decide)

theorem contains_iff_mem (l : List String) (a : String) :
    l.contains a = true ↔ a ∈ l := by
  simp

/-- C2: for a bare builtin name `m` in the alias alternation, the pattern
captures the same identifier `m` from both `"node:" + m` and `m` (the optional
`node:` prefix is stripped), so the builtin resolver computes the same cache
file path for both specifiers. -/
theorem nodePrefixNormalized (names : List String) (m cacheDir : String)
    (hm : m ∈ names) (hbare : stripNode m.data = none) :
    builtinAliasCapture names ("node:" ++ m) = some m
    ∧ builtinAliasCapture names m = some m
    ∧ Option.map (wrapperPath cacheDir) (builtinAliasCapture names ("node:" ++ m)) =
        Option.map (wrapperPath cacheDir) (builtinAliasCapture names m) := by
  have hdata : ("node:" ++ m).data = 'n' :: 'o' :: 'd' :: 'e' :: ':' :: m.data := rfl
  have hmk : String.mk m.data = m := rfl
  have hcont : names.contains m = true := (contains_iff_mem names m).mpr hm
  have h1 : builtinAliasCapture names ("node:" ++ m) = some m := by
    unfold builtinAliasCapture
    rw [hdata]
    show (if names.contains (String.mk m.data) = true then some (String.mk m.data)
      else if names.contains ("node:" ++ m) = true then some ("node:" ++ m)
      else none) = some m
    rw [hmk, if_pos hcont]
  have h2 : builtinAliasCapture names m = some m := by
    unfold builtinAliasCapture
    rw [hbare, if_pos hcont]
  exact ⟨h1, h2, by rw [h1, h2]⟩

/-- Witness for C2: `node:fs` and `fs` capture the same identifier and yield
the same cache path. -/
theorem nodePrefixNormalized_witness :
    builtinAliasCapture ["electron", "fs", "path"] ("node:" ++ "fs") = some "fs"
    ∧ builtinAliasCapture ["electron", "fs", "path"] "fs" = some "fs"
    ∧ Option.map (wrapperPath "/c")
        (builtinAliasCapture ["electron", "fs", "path"] ("node:" ++ "fs")) =
      Option.map (wrapperPath "/c")
        (builtinAliasCapture ["electron", "fs", "path"] "fs") :=
  nodePrefixNormalized ["electron", "fs", "path"] "fs" "/c" (by decide) (by decide)

theorem string_data_inj {a b : String} (h : a.data = b.data) : a = b := by
  cases a
  cases b
  exact congrArg String.mk h

/-- Prepend a whole escaped piece to the first alternative. -/
def appHead (e : List Char) : List (List Char) → List (List Char)
  | [] => [e]
  | a :: as => (e ++ a) :: as

theorem consHead_ne_nil (c : Char) (l : List (List Char)) : consHead c l ≠ [] := by
  cases l <;> simp [consHead]

theorem scanAlts_ne_nil : ∀ l : List Char, scanAlts l ≠ []
  | [] => by simp [scanAlts]
  | c :: rest => by
    unfold scanAlts
    by_cases h1 : c = '|'
    · simp [h1]
    · by_cases h2 : c = '\\'
      · cases rest with
        | nil => simp [h1, h2]
        | cons c2 rest2 => simp [h1, h2, consHead_ne_nil]
      · simp [h1, h2, consHead_ne_nil]

theorem scanAlts_bar (l : List Char) : scanAlts ('|' :: l) = [] :: scanAlts l := by
  rw [scanAlts.eq_def]
  simp

theorem scanAlts_esc (c : Char) (l : List Char) :
    scanAlts ('\\' :: c :: l) = consHead '\\' (consHead c (scanAlts l)) := rfl

theorem scanAlts_char (c : Char) (l : List Char) (h1 : c ≠ '|') (h2 : c ≠ '\\') :
    scanAlts (c :: l) = consHead c (scanAlts l) := by
  conv_lhs => rw [scanAlts.eq_def]
  simp [h1, h2]

theorem meta_bar : isRegexMeta '|' = true := by decide

theorem meta_backslash : isRegexMeta '\\' = true := by decide

theorem litOfAlt_escape : ∀ l : List Char, litOfAlt (escapeChars l) = some l
  | [] => rfl
  | c :: rest => by
    by_cases hc : isRegexMeta c
    · rw [show escapeChars (c :: rest) = '\\' :: c :: escapeChars rest by
        rw [escapeChars.eq_def]
        simp [hc]]
      rw [litOfAlt.eq_def]
      simp [hc, litOfAlt_escape rest]
    · have hcb : c ≠ '\\' := by
        intro h
        rw [h] at hc
        exact hc meta_backslash
      rw [show escapeChars (c :: rest) = c :: escapeChars rest by
        rw [escapeChars.eq_def]
        simp [hc]]
      rw [litOfAlt.eq_def]
      simp [hc, hcb, litOfAlt_escape rest]

theorem scanAlts_escape_append :
    ∀ (k t : List Char),
      scanAlts (escapeChars k ++ t) = appHead (escapeChars k) (scanAlts t)
  | [], t => by
    obtain ⟨a, as, h⟩ := List.exists_cons_of_ne_nil (scanAlts_ne_nil t)
    rw [show escapeChars [] = [] from rfl, List.nil_append, h]
    simp [appHead]
  | c :: rest, t => by
    obtain ⟨a, as, h⟩ := List.exists_cons_of_ne_nil (scanAlts_ne_nil t)
    by_cases hc : isRegexMeta c
    · rw [show escapeChars (c :: rest) = '\\' :: c :: escapeChars rest by
        simp [escapeChars, hc]]
      rw [List.cons_append, List.cons_append, scanAlts_esc,
        scanAlts_escape_append rest t, h]
      simp [appHead, consHead]
    · have hcb : c ≠ '\\' := by
        intro heq
        rw [heq] at hc
        exact hc meta_backslash
      have hbar : c ≠ '|' := by
        intro heq
        rw [heq] at hc
        exact hc meta_bar
      rw [show escapeChars (c :: rest) = c :: escapeChars rest by
        simp [escapeChars, hc]]
      rw [List.cons_append, scanAlts_char c _ hbar hcb,
        scanAlts_escape_append rest t, h]
      simp [appHead, consHead]

theorem scanAlts_pattern :
    ∀ (keys : List String) (k : String),
      scanAlts (declaredPattern (k :: keys)) =
        (k :: keys).map (fun x => escapeChars x.data)
  | [], k => by
    have h := scanAlts_escape_append k.data []
    rw [show declaredPattern [k] = escapeChars k.data from rfl]
    rw [show escapeChars k.data = escapeChars k.data ++ [] by simp, h]
    simp [appHead, scanAlts]
  | k2 :: keys, k => by
    rw [show declaredPattern (k :: k2 :: keys) =
      escapeChars k.data ++ '|' :: declaredPattern (k2 :: keys) from rfl]
    rw [scanAlts_escape_append, scanAlts_bar, scanAlts_pattern keys k2]
    simp [appHead]

theorem declaredPatternMatches_iff (keys : List String) (s : String)
    (hne : keys ≠ []) : declaredPatternMatches keys s = true ↔ s ∈ keys := by
  obtain ⟨k, rest, rfl⟩ := List.exists_cons_of_ne_nil hne
  unfold declaredPatternMatches
  rw [scanAlts_pattern rest k, List.any_eq_true]
  constructor
  · rintro ⟨alt, halt, hdec⟩
    rw [List.mem_map] at halt
    obtain ⟨x, hx, rfl⟩ := halt
    have hl := of_decide_eq_true hdec
    rw [litOfAlt_escape] at hl
    have hx2 : x = s := string_data_inj (Option.some.inj hl)
    rw [hx2] at hx
    exact hx
  · intro hs
    refine ⟨escapeChars s.data, List.mem_map_of_mem _ hs, ?_⟩
    rw [litOfAlt_escape]
    exact decide_eq_true rfl

/-- C7: the declared-module alias pattern built from the escaped identifiers
matches every declared identifier itself (including identifiers with regex
metacharacters, such as scoped packages or dotted names), and matches no
specifier that is not literally one of the declared identifiers. -/
theorem declaredPatternEscaping (keys : List String) (hne : keys ≠ []) :
    (∀ k ∈ keys, declaredPatternMatches keys k = true)
    ∧ (∀ s : String, s ∉ keys → declaredPatternMatches keys s = false) := by
  constructor
  · intro k hk
    exact (declaredPatternMatches_iff keys k hne).mpr hk
  · intro s hs
    cases h : declaredPatternMatches keys s with
    | false => rfl
    | true => exact absurd ((declaredPatternMatches_iff keys s hne).mp h) hs

/-- Witness for C7 at concrete inputs with regex-significant characters. -/
theorem declaredPatternEscaping_witness :
    declaredPatternMatches ["@scope/pkg", "file.js"] "@scope/pkg" = true
    ∧ declaredPatternMatches ["@scope/pkg", "file.js"] "file+js" = false :=
  ⟨(declaredPatternEscaping ["@scope/pkg", "file.js"] (by decide)).1
      "@scope/pkg" (by decide),
   (declaredPatternEscaping ["@scope/pkg", "file.js"] (by decide)).2
      "file+js" (by decide)⟩

theorem assoc_fst_nodup_unique {α : Type} :
    ∀ (l : List (String × α)), (l.map Prod.fst).Nodup →
      ∀ (k : String) (a b : α), (k, a) ∈ l → (k, b) ∈ l → a = b
  | [], _, _, _, _, ha, _ => absurd ha (List.not_mem_nil _)
  | (k0, v0) :: rest, hnd, k, a, b, ha, hb => by
    rw [List.map_cons, List.nodup_cons] at hnd
    rcases List.mem_cons.mp ha with ha0 | ha1
    · rcases List.mem_cons.mp hb with hb0 | hb1
      · rw [Prod.mk.injEq] at ha0 hb0
        exact ha0.2.trans hb0.2.symm
      · exfalso
        apply hnd.1
        rw [Prod.mk.injEq] at ha0
        have hmem : k ∈ List.map Prod.fst rest := List.mem_map_of_mem Prod.fst hb1
        rw [ha0.1] at hmem
        exact hmem
    · rcases List.mem_cons.mp hb with hb0 | hb1
      · exfalso
        apply hnd.1
        rw [Prod.mk.injEq] at hb0
        have hmem : k ∈ List.map Prod.fst rest := List.mem_map_of_mem Prod.fst ha1
        rw [hb0.1] at hmem
        exact hmem
      · exact assoc_fst_nodup_unique rest hnd.2 k a b ha1 hb1

theorem computeResolveKeys_serve (resolve : List (String × ModuleResolveConfig)) :
    computeResolveKeys ViteCommand.serve resolve = resolve.map Prod.fst := by
  unfold computeResolveKeys
  congr 1
  apply List.filter_eq_self.mpr
  intro kv _
  rfl

/-- C3: an ESM-declared module's identifier is excluded from the interception
keys during a `build` configuration pass (and the declared-module pattern,
when one is built at all, does not match it), while during a `serve` pass it
is included and matches; a CJS-declared module's identifier is included and
matches in both modes.  The hypothesis mirrors the uniqueness of JavaScript
object keys in `options.resolve`. -/
theorem buildModeAsymmetry (resolve : List (String × ModuleResolveConfig))
    (hDup : (resolve.map Prod.fst).Nodup) :
    (∀ k cfg, (k, cfg) ∈ resolve → cfg.type = ModuleType.esm →
      k ∉ computeResolveKeys ViteCommand.build resolve
      ∧ (computeResolveKeys ViteCommand.build resolve ≠ [] →
          declaredPatternMatches (computeResolveKeys ViteCommand.build resolve) k = false)
      ∧ k ∈ computeResolveKeys ViteCommand.serve resolve
      ∧ declaredPatternMatches (computeResolveKeys ViteCommand.serve resolve) k = true)
    ∧ (∀ k cfg, (k, cfg) ∈ resolve → cfg.type = ModuleType.cjs →
      k ∈ computeResolveKeys ViteCommand.build resolve
      ∧ declaredPatternMatches (computeResolveKeys ViteCommand.build resolve) k = true
      ∧ k ∈ computeResolveKeys ViteCommand.serve resolve
      ∧ declaredPatternMatches (computeResolveKeys ViteCommand.serve resolve) k = true) := by
  constructor
  · intro k cfg hmem hesm
    have hout : k ∉ computeResolveKeys ViteCommand.build resolve := by
      intro hk
      unfold computeResolveKeys at hk
      rw [List.mem_map] at hk
      obtain ⟨kv, hkv, hfst⟩ := hk
      rw [List.mem_filter] at hkv
      have hkv2 : kv = (k, kv.2) := by
        rw [← hfst]
      have hcfg : kv.2 = cfg := by
        apply assoc_fst_nodup_unique resolve hDup k kv.2 cfg
        · rw [← hkv2]
          exact hkv.1
        · exact hmem
      have := hkv.2
      rw [hcfg, hesm] at this
      simp at this
    have hin : k ∈ computeResolveKeys ViteCommand.serve resolve := by
      rw [computeResolveKeys_serve, List.mem_map]
      exact ⟨(k, cfg), hmem, rfl⟩
    refine ⟨hout, ?_, hin, ?_⟩
    · intro hne
      cases h : declaredPatternMatches (computeResolveKeys ViteCommand.build resolve) k with
      | false => rfl
      | true =>
        exact absurd ((declaredPatternMatches_iff _ k hne).mp h) hout
    · exact (declaredPatternMatches_iff _ k (List.ne_nil_of_mem hin)).mpr hin
  · intro k cfg hmem hcjs
    have hinB : k ∈ computeResolveKeys ViteCommand.build resolve := by
      unfold computeResolveKeys
      rw [List.mem_map]
      refine ⟨(k, cfg), List.mem_filter.mpr ⟨hmem, ?_⟩, rfl⟩
      rw [hcjs]
      rfl
    have hinS : k ∈ computeResolveKeys ViteCommand.serve resolve := by
      rw [computeResolveKeys_serve, List.mem_map]
      exact ⟨(k, cfg), hmem, rfl⟩
    exact ⟨hinB,
      (declaredPatternMatches_iff _ k (List.ne_nil_of_mem hinB)).mpr hinB,
      hinS,
      (declaredPatternMatches_iff _ k (List.ne_nil_of_mem hinS)).mpr hinS⟩

/-- Witness for C3 with one CJS- and one ESM-declared module, as in the
plugin's own tests. -/
theorem buildModeAsymmetry_witness :
    ("node-fetch" ∉ computeResolveKeys ViteCommand.build
        [("serialport", { type := ModuleType.cjs }),
         ("node-fetch", { type := ModuleType.esm })]
      ∧ (computeResolveKeys ViteCommand.build
            [("serialport", { type := ModuleType.cjs }),
             ("node-fetch", { type := ModuleType.esm })] ≠ [] →
          declaredPatternMatches
            (computeResolveKeys ViteCommand.build
              [("serialport", { type := ModuleType.cjs }),
               ("node-fetch", { type := ModuleType.esm })]) "node-fetch" = false)
      ∧ "node-fetch" ∈ computeResolveKeys ViteCommand.serve
          [("serialport", { type := ModuleType.cjs }),
           ("node-fetch", { type := ModuleType.esm })]
      ∧ declaredPatternMatches
          (computeResolveKeys ViteCommand.serve
            [("serialport", { type := ModuleType.cjs }),
             ("node-fetch", { type := ModuleType.esm })]) "node-fetch" = true) :=
  (buildModeAsymmetry
    [("serialport", { type := ModuleType.cjs }),
     ("node-fetch", { type := ModuleType.esm })] (by decide)).1
    "node-fetch" { type := ModuleType.esm } (by decide) rfl

/-- C4 counterexample: for the specifier `"foo"` with no configuration entry,
no cached wrapper, and a host resolver whose own result is `none` (null), the
interceptor does not return the host's null result — it returns
`{ id: "foo" }` instead (`resolved || { id: source }` in src/index.ts line
392 replaces the null).  This refutes the claim that null/failure shapes are
passed through unmasked. -/
theorem passThroughDelegation_cex :
    (declaredResolve "/cache" [] (fun _ => none) ⟨[], []⟩ "foo").2.1 =
        some { id := "foo" }
    ∧ (declaredResolve "/cache" [] (fun _ => none) ⟨[], []⟩ "foo").2.1 ≠ none := by
  constructor
  · decide
  · decide

/-- C4 (amended): when a specifier reaching the declared-module resolver has
no configuration entry and no cached wrapper file, resolution is delegated to
the host; a successful host result is returned unchanged, but a null host
result is replaced by a result object wrapping the bare specifier
(`{ id: source }`) rather than being passed through. -/
theorem passThroughDelegation (cacheDir : String)
    (opts : List (String × ModuleResolveConfig))
    (host : String → Option ResolvedId) (s : ResolverState) (source : String)
    (h1 : alookup s.moduleCache source = none)
    (h2 : fsysExists s.fsys (declaredWrapperPath cacheDir source) = false)
    (h3 : alookup opts source = none) :
    (∀ r, host source = some r →
      (declaredResolve cacheDir opts host s source).2.1 = some r)
    ∧ (host source = none →
      (declaredResolve cacheDir opts host s source).2.1 = some { id := source }) := by
  have hstep : (declaredStep cacheDir opts s source).2.1 = source := by
    unfold declaredStep
    rw [h1]
    simp [h2, h3]
  have hres : (declaredResolve cacheDir opts host s source).2.1 =
      declaredResult host source (declaredStep cacheDir opts s source).2.1 := rfl
  rw [hres, hstep]
  unfold declaredResult
  rw [if_pos rfl]
  constructor
  · intro r hr
    rw [hr]
  · intro hr
    rw [hr]

/-- Witness for C4's amended statement: a host that resolves `"foo"` to a
concrete module has its result returned unchanged. -/
theorem passThroughDelegation_witness :
    (declaredResolve "/cache" []
        (fun _ => some { id := "/resolved/foo.js" }) ⟨[], []⟩ "foo").2.1 =
      some { id := "/resolved/foo.js" } :=
  (passThroughDelegation "/cache" [] (fun _ => some { id := "/resolved/foo.js" })
    ⟨[], []⟩ "foo" (by decide) (by decide) (by decide)).1
    { id := "/resolved/foo.js" } rfl

/-- C5 counterexample: a configuration whose single output object already sets
`freeze: true` keeps `freeze: true` after the adapter runs (`freeze ??= false`
only fills an absent member), so the freeze flag is not disabled on every
output target of every input configuration. -/
theorem freezeDisabled_cex :
    ∃ o ∈ outputTargets
      ((adaptElectron ["electron"]
        { output := some (Sum.inl { freeze := some true }) }).output),
      o.freeze ≠ some false := by
  refine ⟨{ freeze := some true }, ?_, by decide⟩
  show { freeze := some true, dir := none } ∈
    outputTargets ((adaptElectron ["electron"]
      { output := some (Sum.inl { freeze := some true }) }).output)
  decide

/-- C5 (amended): after the adapter runs, every output target (the single
object, each array entry, or the freshly created object when the caller
supplied none) has its freeze flag set to `caller value ?? false` — i.e. it is
disabled wherever the caller had not already set it, while a caller-supplied
value is preserved; the other output members are untouched. -/
theorem freezeDefaulted (bs : List String) (c : UserConfig) :
    List.Forall₂
      (fun o n => n.freeze = some (o.freeze.getD false) ∧ n.dir = o.dir)
      (preTargets c) (outputTargets (adaptElectron bs c).output) := by
  cases hout : c.output with
  | none =>
    unfold adaptElectron preTargets outputTargets
    rw [hout]
    simp
  | some outv =>
    cases outv with
    | inl o =>
      unfold adaptElectron preTargets outputTargets
      rw [hout]
      simp [disableFreeze]
    | inr l =>
      unfold adaptElectron preTargets outputTargets
      rw [hout]
      simp only []
      rw [List.forall₂_map_right_iff, List.forall₂_same]
      intro x _
      exact ⟨rfl, rfl⟩

theorem pushMissing_nodup :
    ∀ (ks acc : List String), acc.Nodup → (pushMissing acc ks).Nodup
  | [], _, h => h
  | s :: rest, acc, h => by
    show (pushMissing (if acc.contains s then acc else acc ++ [s]) rest).Nodup
    by_cases hc : acc.contains s
    · rw [if_pos hc]
      exact pushMissing_nodup rest acc h
    · rw [if_neg hc]
      apply pushMissing_nodup rest
      rw [List.nodup_append]
      refine ⟨h, List.nodup_singleton s, ?_⟩
      intro x hx hxs
      rw [List.mem_singleton] at hxs
      rw [hxs] at hx
      exact hc ((contains_iff_mem acc s).mpr hx)

theorem pushMissing_mem_of_mem :
    ∀ (ks acc : List String) (x : String), x ∈ acc → x ∈ pushMissing acc ks
  | [], _, _, hx => hx
  | s :: rest, acc, x, hx => by
    show x ∈ pushMissing (if acc.contains s then acc else acc ++ [s]) rest
    by_cases hc : acc.contains s
    · rw [if_pos hc]
      exact pushMissing_mem_of_mem rest acc x hx
    · rw [if_neg hc]
      exact pushMissing_mem_of_mem rest (acc ++ [s]) x (List.mem_append_left _ hx)

theorem pushMissing_mem_keys :
    ∀ (ks acc : List String) (k : String), k ∈ ks → k ∈ pushMissing acc ks
  | [], _, _, hk => absurd hk (List.not_mem_nil _)
  | s :: rest, acc, k, hk => by
    show k ∈ pushMissing (if acc.contains s then acc else acc ++ [s]) rest
    rcases List.mem_cons.mp hk with hk0 | hk1
    · apply pushMissing_mem_of_mem
      by_cases hc : acc.contains s
      · rw [if_pos hc, hk0]
        exact (contains_iff_mem acc s).mp hc
      · rw [if_neg hc, hk0]
        exact List.mem_append_right _ (List.mem_singleton_self s)
    · exact pushMissing_mem_keys rest _ k hk1

theorem pushMissing_stable :
    ∀ (ks acc : List String), (∀ k ∈ ks, k ∈ acc) → pushMissing acc ks = acc
  | [], _, _ => rfl
  | s :: rest, acc, h => by
    show pushMissing (if acc.contains s then acc else acc ++ [s]) rest = acc
    rw [if_pos ((contains_iff_mem acc s).mpr (h s (List.mem_cons_self s rest)))]
    exact pushMissing_stable rest acc (fun k hk => h k (List.mem_cons_of_mem s hk))

theorem mergedIgnore_nodup (arr bs : List String) (h1 : arr.Nodup)
    (h2 : bs.Nodup) : (mergedIgnore arr bs).Nodup := by
  unfold mergedIgnore
  rw [List.nodup_append]
  refine ⟨h1, h2.filter _, ?_⟩
  intro x hx hxf
  rw [List.mem_filter] at hxf
  have : ¬ x ∈ arr := by
    simpa using hxf.2
  exact this hx

theorem mergedIgnore_mem_bs (arr bs : List String) (b : String) (hb : b ∈ bs) :
    b ∈ mergedIgnore arr bs := by
  unfold mergedIgnore
  by_cases hc : arr.contains b
  · exact List.mem_append_left _ ((contains_iff_mem arr b).mp hc)
  · refine List.mem_append_right _ (List.mem_filter.mpr ⟨hb, ?_⟩)
    simp only [Bool.not_eq_true'] at hc ⊢
    simpa using hc

theorem mergedIgnore_mem_arr (arr bs : List String) (x : String) (hx : x ∈ arr) :
    x ∈ mergedIgnore arr bs := List.mem_append_left _ hx

theorem mergedIgnore_stable (cur bs : List String)
    (h : ∀ b ∈ bs, b ∈ cur) : mergedIgnore cur bs = cur := by
  unfold mergedIgnore
  rw [List.filter_eq_nil_iff.mpr, List.append_nil]
  intro b hb
  simp only [Bool.not_eq_true']
  simpa using (contains_iff_mem cur b).mpr (h b hb)

theorem adaptElectron_ignore_arr (bs : List String) (c : UserConfig)
    (arr : List String) (hc : c.commonjsIgnore = some (Sum.inr arr)) :
    (adaptElectron bs c).commonjsIgnore = some (Sum.inr (mergedIgnore arr bs)) := by
  unfold adaptElectron
  rw [hc]

theorem modifyOptimizeDeps_field (c : UserConfig) (keys arr2 : List String)
    (he : c.optimizeDepsExclude = some arr2) :
    (modifyOptimizeDeps c keys).optimizeDepsExclude =
      some (pushMissing arr2 keys) := by
  unfold modifyOptimizeDeps
  rw [he]
  rfl

/-- C8: merging the builtin list into an array-form `commonjsOptions.ignore`
and the declared keys into an array-form `optimizeDeps.exclude` yields lists
that contain every required entry and every original entry without the merge
introducing duplicates, and running either merge a second time leaves the
lists unchanged. -/
theorem exclusionMergeIdempotent (bs arr arr2 keys : List String)
    (c : UserConfig) (hc : c.commonjsIgnore = some (Sum.inr arr))
    (he : c.optimizeDepsExclude = some arr2)
    (h1 : arr.Nodup) (h2 : bs.Nodup) (h3 : arr2.Nodup) :
    ignoreList (adaptElectron bs c) = some (mergedIgnore arr bs)
    ∧ (mergedIgnore arr bs).Nodup
    ∧ (∀ b ∈ bs, b ∈ mergedIgnore arr bs)
    ∧ (∀ x ∈ arr, x ∈ mergedIgnore arr bs)
    ∧ ignoreList (adaptElectron bs (adaptElectron bs c)) =
        some (mergedIgnore arr bs)
    ∧ (modifyOptimizeDeps c keys).optimizeDepsExclude =
        some (pushMissing arr2 keys)
    ∧ (pushMissing arr2 keys).Nodup
    ∧ (∀ k ∈ keys, k ∈ pushMissing arr2 keys)
    ∧ (∀ x ∈ arr2, x ∈ pushMissing arr2 keys)
    ∧ (modifyOptimizeDeps (modifyOptimizeDeps c keys) keys).optimizeDepsExclude =
        some (pushMissing arr2 keys) := by
  have hfield := adaptElectron_ignore_arr bs c arr hc
  have hig1 : ignoreList (adaptElectron bs c) = some (mergedIgnore arr bs) := by
    unfold ignoreList
    rw [hfield]
  have hig2 : ignoreList (adaptElectron bs (adaptElectron bs c)) =
      some (mergedIgnore arr bs) := by
    unfold ignoreList
    rw [adaptElectron_ignore_arr bs (adaptElectron bs c) (mergedIgnore arr bs) hfield,
      mergedIgnore_stable _ _ (fun b hb => mergedIgnore_mem_bs arr bs b hb)]
  have hod1 := modifyOptimizeDeps_field c keys arr2 he
  have hod2 : (modifyOptimizeDeps (modifyOptimizeDeps c keys) keys).optimizeDepsExclude =
      some (pushMissing arr2 keys) := by
    rw [modifyOptimizeDeps_field (modifyOptimizeDeps c keys) keys
      (pushMissing arr2 keys) hod1]
    rw [pushMissing_stable keys (pushMissing arr2 keys)
      (fun k hk => pushMissing_mem_keys keys arr2 k hk)]
  exact ⟨hig1, mergedIgnore_nodup arr bs h1 h2,
    fun b hb => mergedIgnore_mem_bs arr bs b hb,
    fun x hx => mergedIgnore_mem_arr arr bs x hx,
    hig2, hod1, pushMissing_nodup keys arr2 h3,
    fun k hk => pushMissing_mem_keys keys arr2 k hk,
    fun x hx => pushMissing_mem_of_mem keys arr2 x hx,
    hod2⟩

/-- Witness for C8 at concrete overlapping lists. -/
theorem exclusionMergeIdempotent_witness :
    ignoreList (adaptElectron ["electron", "fs"]
        { commonjsIgnore := some (Sum.inr ["electron", "zlib"]),
          optimizeDepsExclude := some ["serialport"] }) =
      some (mergedIgnore ["electron", "zlib"] ["electron", "fs"])
    ∧ (mergedIgnore ["electron", "zlib"] ["electron", "fs"]).Nodup :=
  let c : UserConfig :=
    { commonjsIgnore := some (Sum.inr ["electron", "zlib"]),
      optimizeDepsExclude := some ["serialport"] }
  let h := exclusionMergeIdempotent ["electron", "fs"] ["electron", "zlib"]
    ["serialport"] ["serialport", "sqlite3"] c rfl rfl
    (by decide) (by decide) (by decide)
  ⟨h.1, h.2.1⟩

/-- C6: the CJS wrapper emits exactly one named-export declaration for each
supplied name other than the literal `"default"`, never emits one for
`"default"`, and emits none for names that were not supplied; the generated
text is the header plus exactly those declarations.  The `Nodup` hypothesis
mirrors the uniqueness of the export-name list (JS callers pass object keys). -/
theorem cjsWrapperExports (id : String) (names : List String)
    (h : names.Nodup) :
    "default" ∉ cjsExportNames names
    ∧ (∀ n : String, n ∈ names → n ≠ "default" →
        (cjsExportNames names).count n = 1)
    ∧ (∀ n : String, n ∉ names → (cjsExportNames names).count n = 0)
    ∧ generateCjsWrapperSnippet id names =
        generateModuleSnippet id ++
          String.intercalate "\x0a" ((cjsExportNames names).map exportConstLine) := by
  refine ⟨?_, ?_, ?_, rfl⟩
  · intro hd
    unfold cjsExportNames at hd
    rw [List.mem_filter] at hd
    simp at hd
  · intro n hn hnd
    apply List.count_eq_one_of_mem (h.filter _)
    rw [List.mem_filter]
    exact ⟨hn, by simpa using hnd⟩
  · intro n hn
    apply List.count_eq_zero.mpr
    intro hmem
    unfold cjsExportNames at hmem
    rw [List.mem_filter] at hmem
    exact hn hmem.1

/-- Witness for C6 at the test's concrete input
`generateCjsWrapperSnippet("test-module", ["default", "foo", "bar"])`. -/
theorem cjsWrapperExports_witness :
    "default" ∉ cjsExportNames ["default", "foo", "bar"]
    ∧ (cjsExportNames ["default", "foo", "bar"]).count "foo" = 1 :=
  let h := cjsWrapperExports "test-module" ["default", "foo", "bar"] (by decide)
  ⟨h.1, h.2.1 "foo" (by decide) (by decide)⟩

/-- C9: the main-only query returns exactly the names of catalog descriptors
whose environment set is exactly `[Main]`: a descriptor's name is in the
result iff its environment list is the singleton `[Main]`, and every returned
name is the name of such a descriptor.  The query is a pure function of the
compiled-in catalog. -/
theorem mainOnlyCatalogQuery :
    (∀ d ∈ ELECTRON_MAIN_APIS,
      (d.name ∈ getMainOnlyApis ↔ d.environments = [ProcEnv.Main]))
    ∧ (∀ n ∈ getMainOnlyApis, ∃ d ∈ ELECTRON_MAIN_APIS,
        d.name = n ∧ d.environments = [ProcEnv.Main]) := by
  constructor
  · decide
  · decide

/-- Witness for C9: the `app` descriptor is main-only and is reported. -/
theorem mainOnlyCatalogQuery_witness :
    "app" ∈ getMainOnlyApis ∧ "clipboard" ∉ getMainOnlyApis := by
  constructor
  · exact (mainOnlyCatalogQuery.1
      { name := "app", environments := [ProcEnv.Main] } (by decide)).mpr rfl
  · intro hmem
    have h := (mainOnlyCatalogQuery.1
      { name := "clipboard", environments := [ProcEnv.Main, ProcEnv.Renderer] }
      (by decide)).mp hmem
    exact absurd h (by decide)

theorem findNodeModulesGo_none (fsys : String → Bool) :
    ∀ (fuel : Nat) (cur : String),
      (∀ a ∈ dirChain fuel cur, fsys (posixJoin a "node_modules") = false) →
      findNodeModulesGo fsys fuel cur = none
  | 0, _, _ => rfl
  | Nat.succ fuel, cur, h => by
    unfold findNodeModulesGo
    by_cases hc : cur = ""
    · rw [if_pos hc]
    · rw [if_neg hc]
      have hcur : fsys (posixJoin cur "node_modules") = false := by
        apply h
        unfold dirChain
        rw [if_neg hc]
        exact List.mem_cons_self _ _
      simp only [hcur, Bool.false_eq_true, if_false]
      by_cases hp : posixDirname cur = cur
      · rw [if_pos hp]
      · rw [if_neg hp]
        apply findNodeModulesGo_none fsys fuel
        intro a ha
        apply h
        unfold dirChain
        rw [if_neg hc]
        exact List.mem_cons_of_mem cur (by rwa [if_neg hp])

/-- C10: during the configuration pass, when no directory in the upward walk
from the project root (the iterated-dirname ancestor chain, up to the
filesystem root) contains a `node_modules` directory, `findNodeModules`
returns nothing and the cache directory falls back to
`<cwd>/node_modules/<cache dir name>` instead of failing. -/
theorem cacheDirFallback (fsys : String → Bool) (cwd root : String)
    (h : ∀ a ∈ dirChain (2 * root.length + 2) root,
      fsys (posixJoin a "node_modules") = false) :
    findNodeModules fsys root = none
    ∧ computeCacheDir fsys cwd root =
        posixJoin (posixJoin cwd "node_modules") CACHE_DIR := by
  have h1 : findNodeModules fsys root = none :=
    findNodeModulesGo_none fsys (2 * root.length + 2) root h
  refine ⟨h1, ?_⟩
  unfold computeCacheDir
  rw [h1]
  rfl

/-- Witness for C10: an empty file system (no `node_modules` anywhere) sends
the cache directory to the fallback under the working directory. -/
theorem cacheDirFallback_witness :
    findNodeModules (fun _ => false) "/home/user/app" = none
    ∧ computeCacheDir (fun _ => false) "/w" "/home/user/app" =
        posixJoin (posixJoin "/w" "node_modules") CACHE_DIR :=
  cacheDirFallback (fun _ => false) "/w" "/home/user/app" (by decide)

end PluginVER
